import Mathlib

/-
Verification of the watermark repository (src/apply_watermark.py, src/app.py)
against its natural-language specification.

The Python code is shallowly embedded: pure computations become Lean functions
on Nat / Int / Rat, stateful or I/O-dependent parts (filesystem probes, PIL
image decoding, font loading, saving) become explicit environments whose
fallible operations return `Except Unit`, and Python exceptions are the
`.error` case of `Except`.  Pixels are modelled with exact Nat channel
arithmetic following Pillow's C implementations (AlphaComposite.c, Paste.c),
which are the external primitives `Image.alpha_composite` and `Image.paste`
used by the code.
-/

/-- A pixel with 8-bit channels (values kept as Nat; all sources stay in 0..255). -/
structure Pixel where
  r : Nat
  g : Nat
  b : Nat
  a : Nat
deriving DecidableEq

/-- An in-memory raster surface: width, height and a pixel lookup.
Models a PIL RGBA `Image`. -/
structure Surface where
  width : Nat
  height : Nat
  pix : Nat → Nat → Pixel

/-- RGB color triple, as used for text fill and outline colors. -/
abbrev Color := Nat × Nat × Nat

/-- Opaque handle for a loaded font resource (PIL `ImageFont`). -/
abbrev Font := Nat

/-- The fully transparent pixel `(0, 0, 0, 0)`. -/
def Pixel.clear : Pixel := ⟨0, 0, 0, 0⟩

/-- A surface of the given size filled with transparent pixels:
`Image.new('RGBA', size, (0, 0, 0, 0))` at line 297. -/
def clearSurface (w h : Nat) : Surface := ⟨w, h, fun _ _ => Pixel.clear⟩

/-- Pillow's SHIFTFORDIV255 macro: `((a >> 8) + a) >> 8`, an exact `/255`
for inputs of the form `v*255 + 128`. -/
def shiftForDiv255 (v : Nat) : Nat := ((v >>> 8) + v) >>> 8

/-- Pillow's DIV255 macro: division by 255 with rounding, via SHIFTFORDIV255. -/
def div255 (v : Nat) : Nat := shiftForDiv255 (v + 128)

/-- One pixel of `Image.paste(src, pos, mask)` where the mask is the RGBA
source itself, so the mask value is the source alpha: Pillow blends every
channel of dst toward src with weight `m/255` (Paste.c, BLEND macro). -/
def pastePixel (dst src : Pixel) : Pixel :=
  let m := src.a
  ⟨div255 (dst.r * (255 - m) + src.r * m),
   div255 (dst.g * (255 - m) + src.g * m),
   div255 (dst.b * (255 - m) + src.b * m),
   div255 (dst.a * (255 - m) + src.a * m)⟩

/-- One pixel of `Image.alpha_composite(dst, src)`, modelled from Pillow's
AlphaComposite.c: a fully transparent source pixel copies dst verbatim;
otherwise the integer "over" blend with 7 extra precision bits is used. -/
def alphaCompositePixel (dst src : Pixel) : Pixel :=
  if src.a = 0 then dst
  else
    let blend := dst.a * (255 - src.a)
    let outa255 := src.a * 255 + blend
    let coef1 := src.a * 255 * 128 / outa255
    let coef2 := 255 * 128 - coef1
    ⟨shiftForDiv255 (src.r * coef1 + dst.r * coef2 + 128 * 128) >>> 7,
     shiftForDiv255 (src.g * coef1 + dst.g * coef2 + 128 * 128) >>> 7,
     shiftForDiv255 (src.b * coef1 + dst.b * coef2 + 128 * 128) >>> 7,
     shiftForDiv255 (outa255 + 128)⟩

/-- `dst.paste(src, p, src)`: paste `src` at integer position `p` using the
source's own alpha as mask; pixels outside the pasted rectangle keep dst. -/
def pasteAt (dst src : Surface) (p : Int × Int) : Surface :=
  ⟨dst.width, dst.height, fun x y =>
    let dx : Int := (x : Int) - p.1
    let dy : Int := (y : Int) - p.2
    if 0 ≤ dx ∧ dx < (src.width : Int) ∧ 0 ≤ dy ∧ dy < (src.height : Int) then
      pastePixel (dst.pix x y) (src.pix dx.toNat dy.toNat)
    else dst.pix x y⟩

/-- `Image.alpha_composite(dst, src)` pointwise over the dst extent. -/
def alphaCompositeSurface (dst src : Surface) : Surface :=
  ⟨dst.width, dst.height, fun x y => alphaCompositePixel (dst.pix x y) (src.pix x y)⟩

/-- Lines 296-301 of apply_watermark.py: build a transparent canvas the size
of the base, paste the (already resized) watermark onto it at `pos` with the
watermark itself as mask, then alpha-composite the canvas over the base. -/
def overlayComposite (base wm : Surface) (pos : Int × Int) : Surface :=
  alphaCompositeSurface base (pasteAt (clearSurface base.width base.height) wm pos)

/-- Python `int()` on an exact rational value: truncation toward zero. -/
def pyInt (q : Rat) : Int := q.num.tdiv q.den

/-- Line 284: `watermark_width = int(base_image.width * scale_factor)`.
The float product is modelled as exact rational arithmetic. -/
def watermarkWidth (baseW : Nat) (scale_factor : Rat) : Int :=
  pyInt ((baseW : Rat) * scale_factor)

/-- Line 285: `watermark_height = int(watermark_width * watermark.height /
watermark.width)` (Python true division, modelled exactly on rationals). -/
def watermarkHeight (watermark_width : Int) (ovH ovW : Nat) : Int :=
  pyInt (((watermark_width : Rat) * (ovH : Rat)) / (ovW : Rat))

/-- Lines 291-294: overlay placement at the bottom-right corner with padding. -/
def watermarkPosition (baseW baseH : Nat) (wmW wmH padding : Int) : Int × Int :=
  ((baseW : Int) - wmW - padding, (baseH : Int) - wmH - padding)

/-- Lines 208-223 of apply_text_watermark: the drawing origin for the text,
selected by the position string, with fall-through to bottom-left. -/
def textOrigin (position : String) (padding w h tw th : Int) : Int × Int :=
  if position = "bottom-left" then (padding, h - th - padding)
  else if position = "bottom-right" then (w - tw - padding, h - th - padding)
  else if position = "top-left" then (padding, padding)
  else if position = "top-right" then (w - tw - padding, padding)
  else (padding, h - th - padding)

/-- The integer offsets visited by the nested outline loops at lines 227-229:
`offset_x` and `offset_y` each range over `range(-w, w+1)` and the pair
`(0, 0)` is skipped.  The nested for/if is a product followed by a filter. -/
def pyRange (a b : Int) : List Int :=
  (List.range (b - a).toNat).map (fun i : Nat => a + (i : Int))

/-- The offsets at which an outline copy of the text is drawn (lines 227-235). -/
def outlineOffsets (w : Nat) : List (Int × Int) :=
  ((pyRange (-(w : Int)) ((w : Int) + 1)) ×ˢ (pyRange (-(w : Int)) ((w : Int) + 1))).filter
    (fun d => d.1 != 0 || d.2 != 0)

/-- The full ordered draw-call list of lines 227-238: one text draw in the
outline color at origin+offset for every outline offset, then the final
fill-color draw at the origin. -/
def textDrawOps (origin : Int × Int) (w : Nat) (color outline_color : Color) :
    List ((Int × Int) × Color) :=
  ((outlineOffsets w).map (fun d => ((origin.1 + d.1, origin.2 + d.2), outline_color)))
    ++ [(origin, color)]

/-- External collaborators of load_font: `os.path.exists`, `ImageFont.truetype`
(where `none` models a raised exception) and `ImageFont.load_default()`
(which always succeeds). -/
structure FontEnv where
  pathExists : String → Bool
  truetype : String → Nat → Option Font
  defaultFont : Font

/-- The module-level `_font_cache` dict (line 74), threaded explicitly. -/
abbrev FontCache := List (String × Font)

/-- Line 88: `cache_key = f"{font_name}_{font_size}"`. -/
def fontCacheKey (font_name : String) (font_size : Nat) : String :=
  font_name ++ "_" ++ toString font_size

/-- Lines 96-108: the candidate paths probed for Times New Roman. -/
def timesPaths : List String :=
  ["C:/Windows/Fonts/times.ttf",
   "C:/Windows/Fonts/Times.ttf",
   "C:/Windows/Fonts/timesnewroman.ttf",
   "C:/Windows/Fonts/TimesNewRoman.ttf",
   "/usr/share/fonts/truetype/liberation/LiberationSerif-Regular.ttf",
   "/usr/share/fonts/truetype/times/Times-Roman.ttf",
   "/Library/Fonts/Times New Roman.ttf",
   "/System/Library/Fonts/Times.ttc"]

/-- Lines 121-134: the candidate paths probed for Inter. -/
def interPaths : List String :=
  ["C:/Windows/Fonts/Inter-Regular.ttf",
   "C:/Windows/Fonts/inter.ttf",
   "/usr/share/fonts/truetype/inter/Inter-Regular.ttf",
   "/usr/share/fonts/Inter-Regular.ttf",
   "/Library/Fonts/Inter-Regular.ttf",
   "/System/Library/Fonts/Inter-Regular.ttf",
   "fonts/Inter-Regular.ttf",
   "./Inter-Regular.ttf"]

/-- Lines 148-155: the fallback font names tried by bare name. -/
def fallbackFonts : List String :=
  ["times.ttf", "Times.ttf", "arial.ttf", "Arial.ttf",
   "DejaVuSans.ttf", "LiberationSans-Regular.ttf"]

/-- Lines 110-117 / 136-143: probe candidate paths in order; a path is tried
only if it exists, and a load exception moves on to the next candidate. -/
def tryFontPaths (env : FontEnv) (paths : List String) (size : Nat) : Option Font :=
  match paths with
  | [] => none
  | p :: rest =>
    if env.pathExists p then
      match env.truetype p size with
      | some f => some f
      | none => tryFontPaths env rest size
    else tryFontPaths env rest size

/-- Lines 157-163: try each fallback font by bare name, ignoring exceptions. -/
def tryFallbackFonts (env : FontEnv) (names : List String) (size : Nat) : Option Font :=
  match names with
  | [] => none
  | n :: rest =>
    match env.truetype n size with
    | some f => some f
    | none => tryFallbackFonts env rest size

/-- load_font (lines 76-172): cache lookup, family-specific candidate paths,
fallback fonts, and finally the PIL built-in default font; the resolved font
is stored in the cache under `f"{font_name}_{font_size}"`. -/
def load_font (env : FontEnv) (cache : FontCache) (font_name : String) (font_size : Nat) :
    Font × FontCache :=
  let key := fontCacheKey font_name font_size
  match cache.lookup key with
  | some f => (f, cache)
  | none =>
    let primary : Option Font :=
      if font_name.toLower = "times new roman" || font_name.toLower = "times" then
        tryFontPaths env timesPaths font_size
      else if font_name.toLower = "inter" then
        tryFontPaths env interPaths font_size
      else none
    let font : Font :=
      match primary with
      | some f => f
      | none =>
        match tryFallbackFonts env fallbackFonts font_size with
        | some f => f
        | none => env.defaultFont
    (font, (key, font) :: cache)

/-- Kinds of exception that `open`/`read` can raise in read_watermark_text. -/
inductive ReadErr where
  | unicodeDecodeError
  | otherError
deriving DecidableEq

/-- The two reads attempted by read_watermark_text: UTF-8 first, then the
system default encoding.  File content is a Python str = list of chars. -/
structure TextFileEnv where
  readUtf8 : Except ReadErr (List Char)
  readDefault : Except ReadErr (List Char)

/-- Python `str.strip()`: drop whitespace from both ends. -/
def pyStrip (l : List Char) : List Char :=
  ((l.dropWhile Char.isWhitespace).reverse.dropWhile Char.isWhitespace).reverse

/-- Lines 58-59 / 64-65: `text = f.read().strip(); return text if text else None`. -/
def stripOrNone (content : List Char) : Option (List Char) :=
  let t := pyStrip content
  if t.isEmpty then none else some t

/-- read_watermark_text (lines 45-71): try UTF-8, retry with the default
encoding on UnicodeDecodeError, return None on any other failure. -/
def read_watermark_text (env : TextFileEnv) : Option (List Char) :=
  match env.readUtf8 with
  | .ok content => stripOrNone content
  | .error .unicodeDecodeError =>
    match env.readDefault with
    | .ok content => stripOrNone content
    | .error _ => none
  | .error .otherError => none

/-- The measured text bounding box `draw.textbbox((0,0), text, font)` (line 204). -/
structure TextBBox where
  x0 : Int
  y0 : Int
  x1 : Int
  y1 : Int

/-- External collaborators of one apply_watermark invocation.  `openBase`
models `Image.open(image_path)`, `openOverlay` models `Image.open` on the
watermark path, `resize` the LANCZOS resampling, `textbbox` and `drawText`
the PIL drawing primitives (with `.error` for a raised exception), and
`save` the final `final_image.save`. -/
structure PipelineEnv where
  openBase : Except Unit Surface
  baseIsRGBA : Bool
  toRGBA : Surface → Surface
  pathExists : String → Bool
  openOverlay : String → Except Unit Surface
  resize : Surface → Int × Int → Surface
  textbbox : String → Font → Except Unit TextBBox
  drawText : Surface → Int × Int → String → Font → Color → Except Unit Surface
  fonts : FontEnv
  save : Surface → Except Unit Unit

/-- apply_text_watermark (lines 174-240): measure the bounding box, compute
the origin from the position string, then issue every draw call of
`textDrawOps` in order (outline passes first, fill last).  Any PIL exception
is propagated to the caller as `.error`. -/
def apply_text_watermark (env : PipelineEnv) (image : Surface) (text : String) (font : Font)
    (position : String) (padding : Int) (color outline_color : Color) (outline_width : Nat) :
    Except Unit Surface :=
  match env.textbbox text font with
  | .error e => .error e
  | .ok bbox =>
    let text_width := bbox.x1 - bbox.x0
    let text_height := bbox.y1 - bbox.y0
    let origin := textOrigin position padding (image.width : Int) (image.height : Int)
      text_width text_height
    (textDrawOps origin outline_width color outline_color).foldlM
      (fun acc op => env.drawText acc op.1 text font op.2) image

/-- Python truthiness of an `Optional[str]`: None and the empty string are
falsy, every other string is truthy. -/
def pyTruthy : Option String → Bool
  | none => false
  | some s => !s.isEmpty

/-- Record of the one apply_text_watermark call made by apply_watermark
(lines 310-319), kept for observability of the hard-coded arguments. -/
structure TextCall where
  text : String
  fontFamily : String
  fontSize : Nat
  position : String
  padding : Int
  color : Color
  outlineColor : Color
  outlineWidth : Nat

/-- Lines 279-301 of apply_watermark: the image-watermark step.  It runs only
when the path is truthy and `os.path.exists` holds; `Image.open` on the
overlay is NOT guarded by any try/except, so its failure propagates.  On
success it returns the composited surface plus the (size, position) actually
used for the resize and paste. -/
def imageWatermarkStep (env : PipelineEnv) (base : Surface) (watermark_path : Option String)
    (scale_factor : Rat) (padding : Int) :
    Except Unit (Surface × Option ((Int × Int) × (Int × Int))) :=
  match watermark_path with
  | none => .ok (base, none)
  | some wp =>
    if !wp.isEmpty && env.pathExists wp then
      match env.openOverlay wp with
      | .error e => .error e
      | .ok wm =>
        let wmW := watermarkWidth base.width scale_factor
        let wmH := watermarkHeight wmW wm.height wm.width
        let resized := env.resize wm (wmW, wmH)
        let pos := watermarkPosition base.width base.height wmW wmH padding
        .ok (overlayComposite base resized pos, some ((wmW, wmH), pos))
    else .ok (base, none)

/-- Lines 303-321 of apply_watermark: the text-watermark step.  The guard is
plain Python truthiness of `text_watermark`; the body resolves the font with
the hard-coded family "Times New Roman" and renders at the hard-coded
position "bottom-left", and the whole body is wrapped in try/except, so a
failure leaves the surface unchanged.  Returns the surface, the recorded
call (if the step ran), and whether the step failed. -/
def textWatermarkStep (env : PipelineEnv) (cache : FontCache) (out1 : Surface)
    (text_watermark : Option String) (font_size : Nat) (text_color : Color)
    (text_padding : Int) (text_outline_color : Color) (text_outline_width : Nat) :
    Surface × Option TextCall × Bool :=
  match text_watermark with
  | none => (out1, none, false)
  | some t =>
    if t.isEmpty then (out1, none, false)
    else
      let font := (load_font env.fonts cache "Times New Roman" font_size).1
      let call : TextCall :=
        ⟨t, "Times New Roman", font_size, "bottom-left", text_padding,
         text_color, text_outline_color, text_outline_width⟩
      match apply_text_watermark env out1 t font "bottom-left" text_padding
          text_color text_outline_color text_outline_width with
      | .ok s => (s, some call, false)
      | .error _ => (out1, some call, true)

/-- Lines 326-328: flatten an RGBA surface onto a white RGB background using
its own alpha channel as the paste mask (the JPEG output path). -/
def flattenWhite (s : Surface) : Surface :=
  ⟨s.width, s.height, fun x y =>
    let p := s.pix x y
    ⟨div255 (255 * (255 - p.a) + p.r * p.a),
     div255 (255 * (255 - p.a) + p.g * p.a),
     div255 (255 * (255 - p.a) + p.b * p.a),
     255⟩⟩

/-- The outcome of one apply_watermark invocation: the saved surface, the
overlay (size, position) if the image-watermark step ran, the recorded text
call if the text step ran, and whether the text step failed (was caught). -/
structure ApplyResult where
  output : Surface
  overlayCall : Option ((Int × Int) × (Int × Int))
  textCall : Option TextCall
  textStepFailed : Bool

/-- apply_watermark (lines 242-336): open the base image, convert to RGBA if
needed, run the image-watermark step (whose open failure propagates), run the
text-watermark step (whose failures are caught), flatten to RGB for JPEG
output, and save.  `outputIsJpeg` models the extension test of lines 324-325
on the output path. -/
def apply_watermark (env : PipelineEnv) (cache : FontCache) (watermark_path : Option String)
    (outputIsJpeg : Bool) (scale_factor : Rat) (padding : Int)
    (text_watermark : Option String) (font_size : Nat) (text_color : Color)
    (text_padding : Int) (text_outline_color : Color) (text_outline_width : Nat) :
    Except Unit ApplyResult :=
  match env.openBase with
  | .error e => .error e
  | .ok base0 =>
    let base := if env.baseIsRGBA then base0 else env.toRGBA base0
    match imageWatermarkStep env base watermark_path scale_factor padding with
    | .error e => .error e
    | .ok (out1, ocall) =>
      let step2 := textWatermarkStep env cache out1 text_watermark font_size text_color
        text_padding text_outline_color text_outline_width
      let final := if outputIsJpeg then flattenWhite step2.1 else step2.1
      match env.save final with
      | .error e => .error e
      | .ok _ => .ok ⟨final, ocall, step2.2.1, step2.2.2⟩

theorem pyInt_eq_floor (q : Rat) (hq : 0 ≤ q) : pyInt q = ⌊q⌋ := by
  rw [pyInt, Rat.floor_def]
  exact Int.tdiv_eq_ediv (Rat.num_nonneg.mpr hq) (by positivity)

/-- C2 counterexample: with a 10-pixel-wide base and scale factor 0.19 the
code computes `int(10 * 0.19) = int(1.9) = 1`, which is not the nearest
integer to 1.9 — the overlay width is truncated, not rounded. -/
theorem watermark_width_not_rounded :
    watermarkWidth 10 (19/100) = 1 ∧
    ¬ |((watermarkWidth 10 (19/100) : Rat)) - (10 : Rat) * (19/100)| ≤ 1/2 := by
  have h1 : watermarkWidth 10 (19/100) = 1 := by
    rw [watermarkWidth, pyInt_eq_floor _ (by norm_num)]
    norm_num
  refine ⟨h1, ?_⟩
  rw [h1]
  norm_num [abs_le]

/-- C2 (amended): the overlay target width is `int(base.width × scaleFactor)`
and the target height `int(targetWidth × overlay.height / overlay.width)`,
i.e. both dimensions are obtained by truncation toward zero (equal to the
floor for these nonnegative values), not by rounding to the nearest integer;
the resized aspect ratio still matches the source overlay's aspect ratio
within a 1-pixel tolerance. -/
theorem watermark_size_truncates_and_preserves_aspect
    (baseW ovW ovH : Nat) (scale_factor : Rat)
    (hs : 0 < scale_factor) (hw : 0 < ovW) :
    watermarkWidth baseW scale_factor = ⌊(baseW : Rat) * scale_factor⌋ ∧
    watermarkHeight (watermarkWidth baseW scale_factor) ovH ovW =
      ⌊((watermarkWidth baseW scale_factor : Rat) * (ovH : Rat)) / (ovW : Rat)⌋ ∧
    |(watermarkHeight (watermarkWidth baseW scale_factor) ovH ovW : Rat) -
      ((watermarkWidth baseW scale_factor : Rat) * (ovH : Rat)) / (ovW : Rat)| < 1 := by
  have h1 : (0 : Rat) ≤ (baseW : Rat) * scale_factor := by positivity
  have e1 : watermarkWidth baseW scale_factor = ⌊(baseW : Rat) * scale_factor⌋ :=
    pyInt_eq_floor _ h1
  have hWnn : 0 ≤ watermarkWidth baseW scale_factor := by
    rw [e1]; exact Int.floor_nonneg.mpr h1
  have hWq : (0 : Rat) ≤ (watermarkWidth baseW scale_factor : Rat) := by
    exact_mod_cast hWnn
  have h2 : (0 : Rat) ≤ ((watermarkWidth baseW scale_factor : Rat) * (ovH : Rat)) / (ovW : Rat) := by
    positivity
  have e2 : watermarkHeight (watermarkWidth baseW scale_factor) ovH ovW =
      ⌊((watermarkWidth baseW scale_factor : Rat) * (ovH : Rat)) / (ovW : Rat)⌋ :=
    pyInt_eq_floor _ h2
  refine ⟨e1, e2, ?_⟩
  rw [e2]
  set q : Rat := ((watermarkWidth baseW scale_factor : Rat) * (ovH : Rat)) / (ovW : Rat) with hq
  have hle := Int.floor_le q
  have hlt := Int.lt_floor_add_one q
  rw [abs_lt]
  constructor <;> linarith

/-- C2 amended witness at the concrete scenario of C5. -/
theorem watermark_size_truncates_witness :
    watermarkWidth 1000 (1/5) = ⌊(1000 : Rat) * (1/5)⌋ ∧
    watermarkHeight (watermarkWidth 1000 (1/5)) 300 400 =
      ⌊((watermarkWidth 1000 (1/5) : Rat) * (300 : Rat)) / (400 : Rat)⌋ ∧
    |(watermarkHeight (watermarkWidth 1000 (1/5)) 300 400 : Rat) -
      ((watermarkWidth 1000 (1/5) : Rat) * (300 : Rat)) / (400 : Rat)| < 1 :=
  watermark_size_truncates_and_preserves_aspect 1000 400 300 (1/5)
    (by norm_num) (by norm_num)

/-- C5: base 1000×800, overlay 400×300, scaleFactor 0.2, padding 10 — the
overlay step computes resized size 200×150 and bottom-right paste origin
(790, 640), exactly as the spec scenario states. -/
theorem overlay_scenario_1000x800 :
    watermarkWidth 1000 (1/5) = 200 ∧
    watermarkHeight 200 300 400 = 150 ∧
    watermarkPosition 1000 800 200 150 10 = (790, 640) := by
  refine ⟨?_, ?_, ?_⟩
  · rw [watermarkWidth, pyInt_eq_floor _ (by norm_num)]
    norm_num
  · rw [watermarkHeight, pyInt_eq_floor _ (by norm_num)]
    norm_num
  · norm_num [watermarkPosition, Prod.ext_iff]

/-- C3: the text-layout step places the origin at (p, p) for top-left,
(W − textWidth − p, p) for top-right, (p, H − textHeight − p) for
bottom-left, (W − textWidth − p, H − textHeight − p) for bottom-right,
and any unrecognized anchor string falls back to the bottom-left origin. -/
theorem text_origin_corners (padding w h tw th : Int) (hp : 0 ≤ padding) :
    textOrigin "top-left" padding w h tw th = (padding, padding) ∧
    textOrigin "top-right" padding w h tw th = (w - tw - padding, padding) ∧
    textOrigin "bottom-left" padding w h tw th = (padding, h - th - padding) ∧
    textOrigin "bottom-right" padding w h tw th = (w - tw - padding, h - th - padding) ∧
    ∀ position : String,
      position ∉ (["bottom-left", "bottom-right", "top-left", "top-right"] : List String) →
      textOrigin position padding w h tw th = (padding, h - th - padding) := by
  refine ⟨by simp [textOrigin], by simp [textOrigin], by simp [textOrigin],
    by simp [textOrigin], ?_⟩
  intro position hpos
  simp only [List.mem_cons, List.not_mem_nil, or_false, not_or] at hpos
  obtain ⟨h1, h2, h3, h4⟩ := hpos
  rw [textOrigin, if_neg h3, if_neg h4, if_neg h1, if_neg h2]

/-- C3 witness at padding 20 on a 1000×800 surface with a 100×30 text box,
including the unrecognized anchor "center". -/
theorem text_origin_corners_witness :
    textOrigin "top-left" 20 1000 800 100 30 = (20, 20) ∧
    textOrigin "center" 20 1000 800 100 30 = (20, 800 - 30 - 20) :=
  ⟨(text_origin_corners 20 1000 800 100 30 (by decide)).1,
   (text_origin_corners 20 1000 800 100 30 (by decide)).2.2.2.2 "center" (by decide)⟩

theorem pyRange_mem (a b x : Int) : x ∈ pyRange a b ↔ a ≤ x ∧ x < b := by
  simp only [pyRange, List.mem_map, List.mem_range]
  constructor
  · rintro ⟨i, hi, rfl⟩
    omega
  · intro h
    exact ⟨(x - a).toNat, by omega, by omega⟩

theorem pyRange_nodup (a b : Int) : (pyRange a b).Nodup := by
  unfold pyRange
  exact List.Nodup.map (fun i j h => by omega) (List.nodup_range _)

theorem pyRange_length (a b : Int) : (pyRange a b).length = (b - a).toNat := by
  rw [pyRange, List.length_map, List.length_range]

theorem mem_outlineOffsets (w : Nat) (dx dy : Int) :
    (dx, dy) ∈ outlineOffsets w ↔
      -(w : Int) ≤ dx ∧ dx ≤ w ∧ -(w : Int) ≤ dy ∧ dy ≤ w ∧ ¬(dx = 0 ∧ dy = 0) := by
  simp only [outlineOffsets, List.mem_filter, List.mem_product, pyRange_mem,
    Bool.or_eq_true, bne_iff_ne, ne_eq]
  constructor
  · intro h
    omega
  · intro h
    omega

theorem countP_singleton_of_nodup {α : Type} [DecidableEq α] (l : List α) (hl : l.Nodup)
    (a : α) (ha : a ∈ l) : l.countP (fun x => decide (x = a)) = 1 := by
  induction l with
  | nil => cases ha
  | cons b t ih =>
    rw [List.countP_cons]
    rcases List.mem_cons.mp ha with rfl | hat
    · have hbt : a ∉ t := (List.nodup_cons.mp hl).1
      have h0 : t.countP (fun x => decide (x = a)) = 0 := by
        rw [List.countP_eq_zero]
        intro x hx
        simp only [decide_eq_true_eq]
        rintro rfl
        exact hbt hx
      simp [h0]
    · have hba : ¬(b = a) := by
        rintro rfl
        exact (List.nodup_cons.mp hl).1 hat
      have ht := ih (List.nodup_cons.mp hl).2 hat
      simp [ht, hba]

theorem outlineOffsets_length (w : Nat) : (outlineOffsets w).length = (2*w+1)^2 - 1 := by
  set r := pyRange (-(w : Int)) ((w : Int) + 1) with hr
  have hrlen : r.length = 2*w+1 := by
    rw [hr, pyRange_length]
    omega
  have hplen : (r ×ˢ r).length = (2*w+1) * (2*w+1) := by
    rw [List.length_product, hrlen]
  have hnd : (r ×ˢ r).Nodup := List.Nodup.product (pyRange_nodup _ _) (pyRange_nodup _ _)
  have hmem : ((0, 0) : Int × Int) ∈ r ×ˢ r := by
    rw [List.mem_product, hr]
    constructor <;> (rw [pyRange_mem]; omega)
  have hcount1 : (r ×ˢ r).countP (fun x => decide (x = ((0, 0) : Int × Int))) = 1 :=
    countP_singleton_of_nodup _ hnd _ hmem
  have hsplit := List.length_eq_countP_add_countP
    (fun d : Int × Int => d.1 != 0 || d.2 != 0) (r ×ˢ r)
  have hcong : List.countP
      (fun a : Int × Int => decide ¬((fun d : Int × Int => d.1 != 0 || d.2 != 0) a = true))
      (r ×ˢ r) = (r ×ˢ r).countP (fun x => decide (x = ((0, 0) : Int × Int))) := by
    apply List.countP_congr
    intro x _
    simp only [decide_eq_true_eq, Bool.or_eq_true, bne_iff_ne, ne_eq, not_or, not_not]
    constructor
    · rintro ⟨h1, h2⟩
      exact Prod.ext h1 h2
    · rintro rfl
      exact ⟨rfl, rfl⟩
  have hfilter : (outlineOffsets w).length =
      List.countP (fun d : Int × Int => d.1 != 0 || d.2 != 0) (r ×ˢ r) := by
    rw [outlineOffsets, ← hr, List.countP_eq_length_filter]
  rw [hfilter]
  rw [hcong, hcount1] at hsplit
  rw [hplen] at hsplit
  have h2 : (2*w+1)^2 = (2*w+1) * (2*w+1) := by ring
  omega

theorem textDrawOps_getLast (origin : Int × Int) (w : Nat) (color outline_color : Color) :
    (textDrawOps origin w color outline_color).getLast? = some (origin, color) := by
  rw [textDrawOps, List.getLast?_concat]

theorem outlineOffsets_zero : outlineOffsets 0 = [] := by decide

theorem textDrawOps_zero (origin : Int × Int) (color outline_color : Color) :
    textDrawOps origin 0 color outline_color = [(origin, color)] := by
  rw [textDrawOps, outlineOffsets_zero]
  rfl

/-- C4: with outline width w the renderer performs exactly (2w+1)² − 1
outline draws, one at each integer offset (dx, dy) with dx, dy in [−w, w]
except (0, 0); the fill-color draw at the origin comes last in the draw
list; with w = 0 the outline loop contributes nothing and rendering is
exactly the single fill-color draw of the text. -/
theorem outline_draw_structure (origin : Int × Int) (w : Nat) (color outline_color : Color) :
    (outlineOffsets w).length = (2*w+1)^2 - 1 ∧
    (∀ dx dy : Int, (dx, dy) ∈ outlineOffsets w ↔
      -(w : Int) ≤ dx ∧ dx ≤ w ∧ -(w : Int) ≤ dy ∧ dy ≤ w ∧ ¬(dx = 0 ∧ dy = 0)) ∧
    (textDrawOps origin w color outline_color).getLast? = some (origin, color) ∧
    textDrawOps origin 0 color outline_color = [(origin, color)] ∧
    (∀ (env : PipelineEnv) (image : Surface) (text : String) (font : Font)
        (position : String) (padding : Int) (bbox : TextBBox),
      env.textbbox text font = .ok bbox →
      apply_text_watermark env image text font position padding color outline_color 0 =
        env.drawText image
          (textOrigin position padding (image.width : Int) (image.height : Int)
            (bbox.x1 - bbox.x0) (bbox.y1 - bbox.y0)) text font color) := by
  refine ⟨outlineOffsets_length w,
    fun dx dy => mem_outlineOffsets w dx dy,
    textDrawOps_getLast origin w color outline_color,
    textDrawOps_zero origin color outline_color, ?_⟩
  intro env image text font position padding bbox hbb
  simp only [apply_text_watermark, hbb, textDrawOps_zero, List.foldlM]
  cases env.drawText image
      (textOrigin position padding (image.width : Int) (image.height : Int)
        (bbox.x1 - bbox.x0) (bbox.y1 - bbox.y0)) text font color with
  | error e => rfl
  | ok s => rfl

/-- A font environment in which nothing loads: every path probe fails and
every truetype load raises. -/
def fontEnvNone : FontEnv := ⟨fun _ => false, fun _ _ => none, 0⟩

/-- A small opaque base surface for concrete runs. -/
def baseSurf : Surface := ⟨4, 4, fun _ _ => ⟨1, 2, 3, 255⟩⟩

/-- A pipeline environment whose drawing primitives succeed and whose
filesystem has no files; drawText leaves the surface unchanged so concrete
runs stay computable. -/
def envNoOverlay : PipelineEnv :=
  ⟨.ok baseSurf, true, id, fun _ => false, fun _ => .error (), fun s _ => s,
   fun _ _ => .ok ⟨0, 0, 10, 5⟩, fun s _ _ _ _ => .ok s, fontEnvNone, fun _ => .ok ()⟩

/-- C4 witness: concrete outline structure at w = 2 and a w = 0 render that
is exactly the single fill draw. -/
theorem outline_draw_structure_witness :
    (outlineOffsets 2).length = 24 ∧
    ((1, -2) ∈ outlineOffsets 2) ∧
    apply_text_watermark envNoOverlay baseSurf "PROOF" 0 "bottom-left" 20
        (255, 255, 255) (0, 0, 0) 0 =
      envNoOverlay.drawText baseSurf
        (textOrigin "bottom-left" 20 4 4 (10 - 0) (5 - 0)) "PROOF" 0 (255, 255, 255) :=
  ⟨((outline_draw_structure (0, 0) 2 (255, 255, 255) (0, 0, 0)).1).trans (by norm_num),
   ((outline_draw_structure (0, 0) 2 (255, 255, 255) (0, 0, 0)).2.1 1 (-2)).mpr (by decide),
   (outline_draw_structure (0, 0) 0 (255, 255, 255) (0, 0, 0)).2.2.2.2 envNoOverlay baseSurf
     "PROOF" 0 "bottom-left" 20 ⟨0, 0, 10, 5⟩ rfl⟩

/-- C8: every base pixel at which the pasted overlay canvas has alpha 0 is
left exactly unchanged by the overlay compositing step, and every pixel
outside the overlay's pasted rectangle has canvas alpha 0 (so in particular
all such pixels are unchanged). -/
theorem overlay_transparent_pixels_unchanged (base wm : Surface) (pos : Int × Int)
    (x y : Nat) :
    ((((pasteAt (clearSurface base.width base.height) wm pos).pix x y).a = 0 →
      (overlayComposite base wm pos).pix x y = base.pix x y) ∧
    (¬(0 ≤ (x : Int) - pos.1 ∧ (x : Int) - pos.1 < (wm.width : Int) ∧
        0 ≤ (y : Int) - pos.2 ∧ (y : Int) - pos.2 < (wm.height : Int)) →
      ((pasteAt (clearSurface base.width base.height) wm pos).pix x y).a = 0)) := by
  constructor
  · intro h
    show alphaCompositePixel (base.pix x y)
      ((pasteAt (clearSurface base.width base.height) wm pos).pix x y) = base.pix x y
    rw [alphaCompositePixel, if_pos h]
  · intro h
    show (if 0 ≤ (x : Int) - pos.1 ∧ (x : Int) - pos.1 < (wm.width : Int) ∧
        0 ≤ (y : Int) - pos.2 ∧ (y : Int) - pos.2 < (wm.height : Int) then
        pastePixel ((clearSurface base.width base.height).pix x y)
          (wm.pix ((x : Int) - pos.1).toNat ((y : Int) - pos.2).toNat)
      else (clearSurface base.width base.height).pix x y).a = 0
    rw [if_neg h]
    rfl

/-- A fully transparent 2×2 overlay for the C8 witness. -/
def wmTransparent : Surface := ⟨2, 2, fun _ _ => ⟨10, 20, 30, 0⟩⟩

/-- C8 witness: a pixel outside the pasted rectangle has canvas alpha 0, and
a pixel under the fully transparent overlay is unchanged by compositing. -/
theorem overlay_transparent_pixels_unchanged_witness :
    ((pasteAt (clearSurface 4 4) wmTransparent (1, 1)).pix 0 0).a = 0 ∧
    (overlayComposite baseSurf wmTransparent (1, 1)).pix 1 1 = baseSurf.pix 1 1 :=
  ⟨(overlay_transparent_pixels_unchanged baseSurf wmTransparent (1, 1) 0 0).2 (by decide),
   (overlay_transparent_pixels_unchanged baseSurf wmTransparent (1, 1) 1 1).1 (by decide)⟩

theorem tryFontPaths_none (env : FontEnv) (paths : List String) (size : Nat)
    (h : ∀ p, env.truetype p size = none) : tryFontPaths env paths size = none := by
  induction paths with
  | nil => rfl
  | cons p rest ih =>
    rw [tryFontPaths]
    cases env.pathExists p with
    | false => simpa using ih
    | true => simpa [h p] using ih

theorem tryFallbackFonts_none (env : FontEnv) (names : List String) (size : Nat)
    (h : ∀ p, env.truetype p size = none) : tryFallbackFonts env names size = none := by
  induction names with
  | nil => rfl
  | cons n rest ih =>
    rw [tryFallbackFonts, h n]
    exact ih

/-- C7: load_font never fails — when every candidate path and every fallback
font fails to load, it still returns the built-in default font; and a second
call with the same (family, size), against ANY later filesystem state,
returns exactly the cached result of the first call, so the cached resource
is returned without re-probing the filesystem. -/
theorem load_font_default_and_cache (env : FontEnv) (cache : FontCache)
    (font_name : String) (font_size : Nat) :
    (cache.lookup (fontCacheKey font_name font_size) = none →
      (∀ p, env.truetype p font_size = none) →
      (load_font env cache font_name font_size).1 = env.defaultFont) ∧
    (∀ env2 : FontEnv,
      load_font env2 (load_font env cache font_name font_size).2 font_name font_size =
        load_font env cache font_name font_size) := by
  constructor
  · intro hc hnone
    have h1 := tryFontPaths_none env timesPaths font_size hnone
    have h2 := tryFontPaths_none env interPaths font_size hnone
    have h3 := tryFallbackFonts_none env fallbackFonts font_size hnone
    have hp : (if font_name.toLower = "times new roman" || font_name.toLower = "times" then
        tryFontPaths env timesPaths font_size
      else if font_name.toLower = "inter" then
        tryFontPaths env interPaths font_size
      else none) = none := by
      split
      · exact h1
      · split
        · exact h2
        · rfl
    simp only [load_font, hc, hp, h3]
  · intro env2
    cases hl : cache.lookup (fontCacheKey font_name font_size) with
    | some f => simp [load_font, hl]
    | none => simp [load_font, hl, List.lookup]

/-- C7 witness: with an empty cache and an environment where nothing loads,
load_font "Times New Roman" 40 returns the default font, and the second call
(against the same unchanged-failure environment) returns the cached pair. -/
theorem load_font_default_and_cache_witness :
    (([] : FontCache).lookup (fontCacheKey "Times New Roman" 40) = none) ∧
    (load_font fontEnvNone [] "Times New Roman" 40).1 = fontEnvNone.defaultFont ∧
    load_font fontEnvNone (load_font fontEnvNone [] "Times New Roman" 40).2
        "Times New Roman" 40 =
      load_font fontEnvNone [] "Times New Roman" 40 :=
  ⟨rfl,
   (load_font_default_and_cache fontEnvNone [] "Times New Roman" 40).1 rfl (fun _ => rfl),
   (load_font_default_and_cache fontEnvNone [] "Times New Roman" 40).2 fontEnvNone⟩

theorem dropWhile_idem {α : Type} (p : α → Bool) (l : List α) :
    (l.dropWhile p).dropWhile p = l.dropWhile p := by
  induction l with
  | nil => rfl
  | cons a t ih =>
    rw [List.dropWhile_cons]
    split
    · exact ih
    · next h => rw [List.dropWhile_cons, if_neg h]

theorem head?_dropWhile {α : Type} (p : α → Bool) (l : List α) (a : α)
    (h : (l.dropWhile p).head? = some a) : p a = false := by
  have hh := List.head?_dropWhile_not p l
  rw [h] at hh
  exact hh

theorem getLast?_dropWhile {α : Type} (p : α → Bool) (l : List α)
    (h : l.dropWhile p ≠ []) : (l.dropWhile p).getLast? = l.getLast? := by
  conv_rhs => rw [← List.takeWhile_append_dropWhile p l]
  rw [List.getLast?_append]
  cases hg : (l.dropWhile p).getLast? with
  | some b => rfl
  | none =>
    exfalso
    rw [List.getLast?_eq_none_iff] at hg
    exact h hg

theorem pyStrip_head? (l : List Char) (a : Char) (h : (pyStrip l).head? = some a) :
    Char.isWhitespace a = false := by
  rw [pyStrip, List.head?_reverse] at h
  have hne : (l.dropWhile Char.isWhitespace).reverse.dropWhile Char.isWhitespace ≠ [] := by
    intro he
    rw [he] at h
    exact Option.noConfusion h
  rw [getLast?_dropWhile _ _ hne, List.getLast?_reverse] at h
  exact head?_dropWhile _ _ _ h

theorem pyStrip_idem (l : List Char) : pyStrip (pyStrip l) = pyStrip l := by
  have h1 : (pyStrip l).dropWhile Char.isWhitespace = pyStrip l := by
    cases hr : pyStrip l with
    | nil => rfl
    | cons a t =>
      have ha : Char.isWhitespace a = false := pyStrip_head? l a (by rw [hr]; rfl)
      rw [List.dropWhile_cons, if_neg (by simp [ha])]
  have h2 : (pyStrip l).reverse.dropWhile Char.isWhitespace = (pyStrip l).reverse := by
    have hrr : (pyStrip l).reverse =
        (l.dropWhile Char.isWhitespace).reverse.dropWhile Char.isWhitespace := by
      rw [pyStrip, List.reverse_reverse]
    rw [hrr]
    exact dropWhile_idem _ _
  show ((((pyStrip l).dropWhile Char.isWhitespace).reverse.dropWhile
      Char.isWhitespace).reverse) = pyStrip l
  rw [h1, h2, List.reverse_reverse]

/-- C10: for every filesystem outcome (successful read, undecodable content
with or without a successful retry, or any other read failure),
read_watermark_text either returns None or returns a non-empty string that
carries no leading or trailing whitespace (stripping it again changes
nothing); it never returns the empty string and, being total, never raises. -/
theorem read_watermark_text_none_or_stripped (env : TextFileEnv) :
    read_watermark_text env = none ∨
    ∃ s, read_watermark_text env = some s ∧ s ≠ [] ∧ pyStrip s = s := by
  have key : ∀ c : List Char, stripOrNone c = none ∨
      ∃ s, stripOrNone c = some s ∧ s ≠ [] ∧ pyStrip s = s := by
    intro c
    by_cases h : (pyStrip c).isEmpty = true
    · left
      simp [stripOrNone, h]
    · right
      refine ⟨pyStrip c, by simp [stripOrNone, h], ?_, pyStrip_idem c⟩
      intro he
      rw [he] at h
      exact h rfl
  rcases henv : env.readUtf8 with e | c
  · cases e with
    | unicodeDecodeError =>
      rcases hdef : env.readDefault with e2 | c
      · left
        rw [read_watermark_text, henv, hdef]
      · have := key c
        rw [read_watermark_text, henv, hdef]
        exact this
    | otherError =>
      left
      rw [read_watermark_text, henv]
  · have := key c
    rw [read_watermark_text, henv]
    exact this

theorem imageWatermarkStep_skip (env : PipelineEnv) (base : Surface) (wp : Option String)
    (scale_factor : Rat) (padding : Int) (h : ∀ p, env.pathExists p = false) :
    imageWatermarkStep env base wp scale_factor padding = .ok (base, none) := by
  cases wp with
  | none => rfl
  | some s =>
    rw [imageWatermarkStep, h s]
    simp

theorem textWatermarkStep_isSome (env : PipelineEnv) (cache : FontCache) (out1 : Surface)
    (txt : Option String) (fs : Nat) (tc : Color) (tp : Int) (toc : Color) (tow : Nat) :
    ((textWatermarkStep env cache out1 txt fs tc tp toc tow).2.1).isSome = pyTruthy txt := by
  cases txt with
  | none => rfl
  | some t =>
    rw [textWatermarkStep, pyTruthy]
    by_cases ht : t.isEmpty = true
    · rw [if_pos ht]
      simp [ht]
    · rw [if_neg ht]
      cases happ : apply_text_watermark env out1 t
          ((load_font env.fonts cache "Times New Roman" fs).1) "bottom-left" tp tc toc tow with
      | error e => simp [happ, eq_false_of_ne_true ht]
      | ok s => simp [happ, eq_false_of_ne_true ht]

theorem textWatermarkStep_call (env : PipelineEnv) (cache : FontCache) (out1 : Surface)
    (txt : Option String) (fs : Nat) (tc : Color) (tp : Int) (toc : Color) (tow : Nat)
    (c : TextCall)
    (h : (textWatermarkStep env cache out1 txt fs tc tp toc tow).2.1 = some c) :
    c.position = "bottom-left" ∧ c.fontFamily = "Times New Roman" := by
  cases txt with
  | none => exact absurd h (by simp [textWatermarkStep])
  | some t =>
    rw [textWatermarkStep] at h
    by_cases ht : t.isEmpty = true
    · rw [if_pos ht] at h
      exact absurd h (by simp)
    · rw [if_neg ht] at h
      cases happ : apply_text_watermark env out1 t
          ((load_font env.fonts cache "Times New Roman" fs).1) "bottom-left" tp tc toc tow with
      | error e =>
        simp only [happ, Option.some.injEq] at h
        subst h
        exact ⟨rfl, rfl⟩
      | ok s =>
        simp only [happ, Option.some.injEq] at h
        subst h
        exact ⟨rfl, rfl⟩

theorem apply_watermark_ok_textCall (env : PipelineEnv) (cache : FontCache)
    (wp : Option String) (jpeg : Bool) (scale : Rat) (pad : Int) (txt : Option String)
    (fs : Nat) (tc : Color) (tp : Int) (toc : Color) (tow : Nat) (r : ApplyResult)
    (h : apply_watermark env cache wp jpeg scale pad txt fs tc tp toc tow = .ok r) :
    ∃ out1, r.textCall = (textWatermarkStep env cache out1 txt fs tc tp toc tow).2.1 := by
  cases hob : env.openBase with
  | error e => simp [apply_watermark, hob] at h
  | ok base0 =>
    cases hiw : imageWatermarkStep env (if env.baseIsRGBA then base0 else env.toRGBA base0)
        wp scale pad with
    | error e => simp [apply_watermark, hob, hiw] at h
    | ok pr =>
      obtain ⟨out1, ocall⟩ := pr
      simp only [apply_watermark, hob, hiw] at h
      split at h
      · exact absurd h (by simp)
      · injection h with h2
        subst h2
        exact ⟨out1, rfl⟩

/-- An environment in which the overlay path exists but `Image.open` on it
raises (a corrupt overlay file); everything else succeeds. -/
def envOverlayCorrupt : PipelineEnv :=
  ⟨.ok baseSurf, true, id, fun _ => true, fun _ => .error (), fun s _ => s,
   fun _ _ => .ok ⟨0, 0, 10, 5⟩, fun s _ _ _ _ => .ok s, fontEnvNone, fun _ => .ok ()⟩

/-- C1 counterexample: when the overlay file exists but is unreadable,
`Image.open(watermark_path)` raises inside the unguarded overlay step and the
exception propagates out of apply_watermark — the pipeline aborts, no output
is saved, even though text was supplied. -/
theorem apply_watermark_aborts_on_corrupt_overlay :
    apply_watermark envOverlayCorrupt [] (some "watermark.png") false (3/20) 10
      (some "hello") 40 (255, 255, 255) 20 (0, 0, 0) 2 = .error () := rfl

/-- C1 (amended): when the overlay file path does not exist, the overlay step
is skipped by the `os.path.exists` guard and apply_watermark still produces
and saves an output with only the text step applied (when text was supplied);
failures inside the text step are caught and never propagate (the statement
holds for every environment, including those whose text primitives raise).
Only an error opening an existing overlay file propagates to the caller. -/
theorem apply_watermark_missing_overlay_continues
    (env : PipelineEnv) (cache : FontCache) (wp : Option String) (jpeg : Bool)
    (scale : Rat) (pad : Int) (txt : Option String) (fs : Nat) (tc : Color)
    (tp : Int) (toc : Color) (tow : Nat) (base : Surface)
    (hopen : env.openBase = .ok base)
    (hexists : ∀ p, env.pathExists p = false)
    (hsave : ∀ s, env.save s = .ok ()) :
    ∃ r, apply_watermark env cache wp jpeg scale pad txt fs tc tp toc tow = .ok r ∧
      r.overlayCall = none ∧ r.textCall.isSome = pyTruthy txt := by
  simp only [apply_watermark, hopen,
    imageWatermarkStep_skip env _ wp scale pad hexists, hsave]
  exact ⟨_, rfl, rfl, textWatermarkStep_isSome env cache _ txt fs tc tp toc tow⟩

/-- C1 witness: a concrete run with a missing overlay file and supplied text
produces a saved result with no overlay call and a text call. -/
theorem apply_watermark_missing_overlay_continues_witness :
    ∃ r, apply_watermark envNoOverlay [] (some "watermark.png") false (3/20) 10
        (some "hello") 40 (255, 255, 255) 20 (0, 0, 0) 2 = .ok r ∧
      r.overlayCall = none ∧ r.textCall.isSome = pyTruthy (some "hello") :=
  apply_watermark_missing_overlay_continues envNoOverlay [] (some "watermark.png") false
    (3/20) 10 (some "hello") 40 (255, 255, 255) 20 (0, 0, 0) 2 baseSurf rfl
    (fun _ => rfl) (fun _ => rfl)

/-- C6 counterexample: the guard of the text step is plain Python truthiness
`if text_watermark:`, with NO whitespace trimming — a whitespace-only string
is truthy, so the text step executes (the font is resolved and the render is
attempted) even though the text is empty after trimming. -/
theorem whitespace_text_triggers_text_step :
    (∃ r, apply_watermark envNoOverlay [] none false (3/20) 10 (some " ") 40
        (255, 255, 255) 20 (0, 0, 0) 2 = .ok r ∧ r.textCall.isSome = true) ∧
    pyStrip (" ").toList = [] :=
  ⟨⟨_, rfl, rfl⟩, by decide⟩

/-- C6 (amended): in apply_watermark the text-watermark step executes if and
only if the supplied text is truthy, i.e. not None and non-empty WITHOUT any
trimming; whitespace-only text does trigger the step.  (The batch driver's
read_watermark_text strips file content beforehand, so whitespace-only
sidecar files yield None there, but apply_watermark itself does not trim.) -/
theorem text_step_runs_iff_text_truthy
    (env : PipelineEnv) (cache : FontCache) (wp : Option String) (jpeg : Bool)
    (scale : Rat) (pad : Int) (txt : Option String) (fs : Nat) (tc : Color)
    (tp : Int) (toc : Color) (tow : Nat) (r : ApplyResult)
    (h : apply_watermark env cache wp jpeg scale pad txt fs tc tp toc tow = .ok r) :
    r.textCall.isSome = true ↔ txt ≠ none ∧ txt ≠ some "" := by
  obtain ⟨out1, he⟩ := apply_watermark_ok_textCall env cache wp jpeg scale pad txt
    fs tc tp toc tow r h
  rw [he, textWatermarkStep_isSome]
  cases txt with
  | none => simp [pyTruthy]
  | some t =>
    simp only [pyTruthy, Bool.not_eq_true', ne_eq, Option.some.injEq, reduceCtorEq,
      not_false_eq_true, true_and]
    rw [← String.isEmpty_iff]
    cases t.isEmpty <;> simp

/-- The result of a concrete apply_watermark run with text "x". -/
def c6res : ApplyResult :=
  match apply_watermark envNoOverlay [] none false (3/20) 10 (some "x") 40
      (255, 255, 255) 20 (0, 0, 0) 2 with
  | .ok r => r
  | .error _ => ⟨baseSurf, none, none, false⟩

/-- C6 amended witness: for the concrete run with text "x" the step ran and
the iff instantiates. -/
theorem text_step_runs_iff_text_truthy_witness :
    c6res.textCall.isSome = true ↔ some "x" ≠ none ∧ some "x" ≠ some "" :=
  text_step_runs_iff_text_truthy envNoOverlay [] none false (3/20) 10 (some "x") 40
    (255, 255, 255) 20 (0, 0, 0) 2 c6res rfl

/-- C9: whenever apply_watermark makes a text-rendering call, that call uses
the hard-coded anchor "bottom-left" and the hard-coded font family
"Times New Roman", for every combination of the entry point's parameters —
no parameter (and no WatermarkConfig field) can select a different text
anchor or font family through this entry point. -/
theorem text_call_always_bottom_left_times
    (env : PipelineEnv) (cache : FontCache) (wp : Option String) (jpeg : Bool)
    (scale : Rat) (pad : Int) (txt : Option String) (fs : Nat) (tc : Color)
    (tp : Int) (toc : Color) (tow : Nat) (r : ApplyResult) (c : TextCall)
    (h : apply_watermark env cache wp jpeg scale pad txt fs tc tp toc tow = .ok r)
    (hc : r.textCall = some c) :
    c.position = "bottom-left" ∧ c.fontFamily = "Times New Roman" := by
  obtain ⟨out1, he⟩ := apply_watermark_ok_textCall env cache wp jpeg scale pad txt
    fs tc tp toc tow r h
  rw [he] at hc
  exact textWatermarkStep_call env cache out1 txt fs tc tp toc tow c hc

/-- The result of a concrete apply_watermark run with text "hi". -/
def c9res : ApplyResult :=
  match apply_watermark envNoOverlay [] (some "wm.png") false (3/20) 10 (some "hi") 40
      (255, 255, 255) 20 (0, 0, 0) 2 with
  | .ok r => r
  | .error _ => ⟨baseSurf, none, none, false⟩

/-- The text call recorded by that run. -/
def c9call : TextCall :=
  c9res.textCall.getD ⟨"", "", 0, "", 0, (0, 0, 0), (0, 0, 0), 0⟩

/-- C9 witness: that concrete run's text call is at "bottom-left" with
family "Times New Roman". -/
theorem text_call_always_bottom_left_times_witness :
    c9call.position = "bottom-left" ∧ c9call.fontFamily = "Times New Roman" :=
  text_call_always_bottom_left_times envNoOverlay [] (some "wm.png") false (3/20) 10
    (some "hi") 40 (255, 255, 255) 20 (0, 0, 0) 2 c9res c9call rfl rfl
